import Mathlib

/-!
Verification development for the slack chat-relay repository.

The Python sources are shallowly embedded: text is `List Char`, the regex
operations of the command parser are embedded as explicit left-to-right
scanning functions matching Python `re.search` / `re.sub` semantics for the
concrete patterns used by the code, the sqlite-backed session store is a list
of rows with an autoincrement counter and a failure flag standing for
`sqlite3.Error` conditions, and the HTTP backend of the LLM gateway is an
oracle function from request payloads to either an error or a response.
-/

namespace SlackChat

/-- Python `str.strip` whitespace predicate (ASCII subset used by the code). -/
def isWS (c : Char) : Bool :=
  c = ' ' ∨ c = '\t' ∨ c = '\n' ∨ c = '\r' ∨ c = Char.ofNat 11 ∨ c = Char.ofNat 12

/-- Left strip: Python `str.lstrip()`. -/
def lstrip (l : List Char) : List Char := l.dropWhile isWS

/-- Right strip: Python `str.rstrip()`. -/
def rstrip (l : List Char) : List Char := l.rdropWhile isWS

/-- Python `str.strip()`: drop whitespace from both ends. -/
def pyStrip (l : List Char) : List Char := rstrip (lstrip l)

/-- The quote delimiter of the inline directives. -/
def quoteChar : Char := Char.ofNat 34

/-- Attempted match of the directive regex `key<content>"` (where `key` is the
literal `system:"` or `model:"`) at the head of the text, following Python
regex semantics: the greedy `[^"]*` group takes every character up to the next
quote, and the closing quote must exist.  Returns the captured group and the
text after the match. -/
def matchDirAt (key : List Char) (l : List Char) : Option (List Char × List Char) :=
  if key.isPrefixOf l then
    let rest := l.drop key.length
    let content := rest.takeWhile (fun c => c ≠ quoteChar)
    match rest.drop content.length with
    | c :: after => if c = quoteChar then some (content, after) else none
    | [] => none
  else none

/-- First match of a directive pattern in the text (Python `re.search`):
returns the captured content of the leftmost match, if any. -/
def findDir (key : List Char) : List Char → Option (List Char)
  | [] => none
  | c :: rest =>
    match matchDirAt key (c :: rest) with
    | some (co, _) => some co
    | none => findDir key rest

/-- Fuel-driven scanner behind `removeAllDir`; the fuel bounds the number of
scan steps and is always at least the text length at the call sites, so the
fuel-exhausted branch is unreachable. -/
def removeAllDirGo (key : List Char) : Nat → List Char → List Char
  | _, [] => []
  | 0, l => l
  | fuel + 1, c :: rest =>
    match matchDirAt key (c :: rest) with
    | some (_, after) => removeAllDirGo key fuel after
    | none => c :: removeAllDirGo key fuel rest

/-- Removal of every leftmost non-overlapping match of a directive pattern
(Python `re.sub(pattern, "", text)`): scan left to right, skipping each match
and continuing after it without rescanning. -/
def removeAllDir (key : List Char) (l : List Char) : List Char :=
  removeAllDirGo key l.length l

/-- Opening characters of Slack mention markup `<@...>`. -/
def ltChar : Char := '<'

/-- Character class `[A-Z0-9]` of the mention regex. -/
def isMentionChar (c : Char) : Bool := ('A' ≤ c ∧ c ≤ 'Z') ∨ ('0' ≤ c ∧ c ≤ '9')

/-- Attempted match of the mention regex `<@[A-Z0-9]+>` at the head of the
text; returns the text after the match. -/
def matchMentionAt (l : List Char) : Option (List Char) :=
  match l with
  | c1 :: c2 :: rest =>
    if c1 = ltChar ∧ c2 = '@' then
      let run := rest.takeWhile isMentionChar
      if run.length = 0 then none
      else
        match rest.drop run.length with
        | c :: after => if c = '>' then some after else none
        | [] => none
    else none
  | _ => none

/-- Fuel-driven scanner behind `removeMentions`. -/
def removeMentionsGo : Nat → List Char → List Char
  | _, [] => []
  | 0, l => l
  | fuel + 1, c :: rest =>
    match matchMentionAt (c :: rest) with
    | some after => removeMentionsGo fuel after
    | none => c :: removeMentionsGo fuel rest

/-- Removal of every leftmost non-overlapping match of the mention pattern
(`re.sub(r"<@[A-Z0-9]+>", "", text)`). -/
def removeMentions (l : List Char) : List Char :=
  removeMentionsGo l.length l

/-- `SlackHandler.clean_mention_text`: strip mention markup, then whitespace. -/
def clean_mention_text (l : List Char) : List Char := pyStrip (removeMentions l)

/-- The literal pattern prefix `system:"` of the system-prompt directive. -/
def sysKey : List Char := ['s', 'y', 's', 't', 'e', 'm', ':', quoteChar]

/-- The literal pattern prefix `model:"` of the model-override directive. -/
def modelKey : List Char := ['m', 'o', 'd', 'e', 'l', ':', quoteChar]

/-- One directive-extraction step of the parser: if the pattern matches
somewhere (`re.search`), capture the first match's group and substitute every
match away (`re.sub`), stripping the result; otherwise leave the text alone. -/
def extractDir (key : List Char) (t : List Char) : Option (List Char) × List Char :=
  match findDir key t with
  | some co => (some co, pyStrip (removeAllDir key t))
  | none => (none, t)

/-- Result of `parse_command_and_message` / `_parse_thread_message`. -/
structure Parsed where
  command : List Char
  userMessage : List Char
  systemPrompt : Option (List Char)
  modelName : Option (List Char)
deriving DecidableEq, Repr

/-- The three command tokens produced by the parser. -/
def cmdOllama : List Char := "ollama".data
def cmdClear : List Char := "clear".data
def cmdHelp : List Char := "help".data

/-- Slash-command classification of the residual text, checked in source
order: `/ollama` (strip the 7-character prefix, trim), `/clear`, `/help`,
otherwise default to the ollama chat command with the full text. -/
def classifyCommand (t : List Char) : List Char × List Char :=
  if "/ollama".data.isPrefixOf t then (cmdOllama, pyStrip (t.drop 7))
  else if "/clear".data.isPrefixOf t then (cmdClear, [])
  else if "/help".data.isPrefixOf t then (cmdHelp, [])
  else (cmdOllama, t)

/-- `SlackHandler.parse_command_and_message`: clean mention markup and
whitespace, extract the system-prompt directive, then the model directive,
then classify the slash command. -/
def parse_command_and_message (text : List Char) : Parsed :=
  let clean0 := clean_mention_text text
  let s := extractDir sysKey clean0
  let m := extractDir modelKey s.2
  let c := classifyCommand m.2
  ⟨c.1, c.2, s.1, m.1⟩

/-- `ChatBot._parse_thread_message`: identical to the mention parser except
that the text is only stripped (no mention markup removal). -/
def parse_thread_message (text : List Char) : Parsed :=
  let clean0 := pyStrip text
  let s := extractDir sysKey clean0
  let m := extractDir modelKey s.2
  let c := classifyCommand m.2
  ⟨c.1, c.2, s.1, m.1⟩

/-! ## Session store (`session_manager.py`)

One row of the `chat_messages` table; `created_at` is not read anywhere in
the session manager's query paths and is omitted. -/

structure Row where
  id : Nat
  thread_id : List Char
  role : List Char
  content : List Char
deriving DecidableEq, Repr

/-- The sqlite database: rows in insertion order plus the autoincrement
counter (sqlite assigns ids starting from 1). -/
structure DB where
  rows : List Row
  nextId : Nat
deriving DecidableEq, Repr

/-- The session manager handle: the database plus a failure flag standing for
`sqlite3.Error` being raised by the storage layer while it is set. -/
structure Store where
  db : DB
  fail : Bool
deriving DecidableEq, Repr

/-- A storage error (`sqlite3.Error`). -/
inductive SqlError
  | sqlError
deriving DecidableEq, Repr

/-- Well-formedness of the table: ids strictly increase along insertion order
(`id` is `INTEGER PRIMARY KEY AUTOINCREMENT`) and stay below the counter. -/
def DB.wf (db : DB) : Prop :=
  List.Pairwise (fun a b => a.id < b.id) db.rows ∧ ∀ r ∈ db.rows, r.id < db.nextId

instance (db : DB) : Decidable db.wf := by
  unfold DB.wf
  infer_instance

/-- `SessionManager.add_message`: `INSERT INTO chat_messages (thread_id, role,
content) VALUES (?, ?, ?)`.  A storage error is logged and re-raised. -/
def add_message (s : Store) (thread_id role content : List Char) :
    Except SqlError Store :=
  if s.fail then .error .sqlError
  else .ok ⟨⟨s.db.rows ++ [⟨s.db.nextId, thread_id, role, content⟩], s.db.nextId + 1⟩,
    s.fail⟩

/-- Descending insertion by `id` (used to embed `ORDER BY id DESC`). -/
def insertDesc (r : Row) : List Row → List Row
  | [] => [r]
  | x :: xs => if x.id ≤ r.id then r :: x :: xs else x :: insertDesc r xs

/-- Sort rows by `id` descending (`ORDER BY id DESC`). -/
def sortDesc : List Row → List Row
  | [] => []
  | x :: xs => insertDesc x (sortDesc xs)

/-- `SessionManager.get_history`: `SELECT role, content FROM chat_messages
WHERE thread_id = ? ORDER BY id DESC LIMIT ?`, then reverse into chronological
order.  On a storage error it returns the empty list. -/
def get_history (s : Store) (thread_id : List Char) (limit : Nat := 20) :
    List (List Char × List Char) :=
  if s.fail then []
  else
    let rows := (sortDesc (s.db.rows.filter (fun r => r.thread_id = thread_id))).take limit
    rows.reverse.map (fun r => (r.role, r.content))

/-- `SessionManager.clear_thread_history`: `DELETE FROM chat_messages WHERE
thread_id = ?`.  A storage error is logged and re-raised. -/
def clear_thread_history (s : Store) (thread_id : List Char) : Except SqlError Store :=
  if s.fail then .error .sqlError
  else .ok ⟨⟨s.db.rows.filter (fun r => ¬ r.thread_id = thread_id), s.db.nextId⟩, s.fail⟩

/-- `SessionManager.has_thread_history`: `SELECT COUNT(*) ... WHERE thread_id
= ?` compared with zero; returns `false` if the storage read raises. -/
def has_thread_history (s : Store) (thread_id : List Char) : Bool :=
  if s.fail then false
  else (s.db.rows.filter (fun r => r.thread_id = thread_id)).length > 0

/-- `SessionManager.get_statistics`: four `COUNT` queries packed into a dict;
on a storage error the empty dict is returned. -/
def get_statistics (s : Store) : List (List Char × Nat) :=
  if s.fail then []
  else
    [("total_messages".data, s.db.rows.length),
     ("total_threads".data, (s.db.rows.map Row.thread_id).dedup.length),
     ("user_messages".data, (s.db.rows.filter (fun r => r.role = "user".data)).length),
     ("assistant_messages".data,
       (s.db.rows.filter (fun r => r.role = "assistant".data)).length)]

/-- Lexicographic comparison of text values (sqlite `ORDER BY thread_id`). -/
def textLe : List Char → List Char → Bool
  | [], _ => true
  | _ :: _, [] => false
  | a :: as, b :: bs => if a = b then textLe as bs else a.val ≤ b.val

/-- Ascending insertion sort by `textLe`. -/
def insertText (x : List Char) : List (List Char) → List (List Char)
  | [] => [x]
  | y :: ys => if textLe x y then x :: y :: ys else y :: insertText x ys

/-- Sort text values ascending (sqlite `ORDER BY thread_id`). -/
def sortText : List (List Char) → List (List Char)
  | [] => []
  | x :: xs => insertText x (sortText xs)

/-- `SessionManager.get_all_threads`: `SELECT DISTINCT thread_id ... ORDER BY
thread_id`; on a storage error the empty list is returned. -/
def get_all_threads (s : Store) : List (List Char) :=
  if s.fail then []
  else sortText (s.db.rows.map Row.thread_id).dedup

/-! ## LLM gateway (`llm/ollama_client.py`, `utils/api_utils.py`)

JSON values as parsed by `response.json()`. -/

inductive JVal where
  | jstr (s : List Char)
  | jnum (n : Int)
  | jbool (b : Bool)
  | jnull
  | jarr (elems : List JVal)
  | jobj (fields : List (List Char × JVal))
deriving Repr

/-- The single-quote character used by Python container repr. -/
def squote : Char := Char.ofNat 39

/-- The opening brace of Python dict repr. -/
def lbrace : Char := Char.ofNat 123

/-- The closing brace of Python dict repr. -/
def rbrace : Char := Char.ofNat 125

mutual

/-- Python `repr` of a JSON value (strings single-quoted), the form `str`
gives to values nested inside containers. -/
def pyRepr : JVal → List Char
  | .jstr s => squote :: s ++ [squote]
  | .jnum n => (toString n).data
  | .jbool true => "True".data
  | .jbool false => "False".data
  | .jnull => "None".data
  | .jarr es => '[' :: pyReprList es ++ [']']
  | .jobj fs => lbrace :: pyReprFields fs ++ [rbrace]

/-- Comma-joined reprs of the elements of a Python list. -/
def pyReprList : List JVal → List Char
  | [] => []
  | [x] => pyRepr x
  | x :: y :: rest => pyRepr x ++ ", ".data ++ pyReprList (y :: rest)

/-- Comma-joined `key: value` reprs of the items of a Python dict. -/
def pyReprFields : List (List Char × JVal) → List Char
  | [] => []
  | [(k, v)] => squote :: k ++ [squote] ++ ": ".data ++ pyRepr v
  | (k, v) :: f :: rest =>
    squote :: k ++ [squote] ++ ": ".data ++ pyRepr v ++ ", ".data ++ pyReprFields (f :: rest)

end

/-- Python `str` of a JSON value: a bare string for `str` inputs, repr
otherwise. -/
def pyStr : JVal → List Char
  | .jstr s => s
  | v => pyRepr v

/-- The mutable state of `OllamaClient`: configuration plus the current
(default) model name, mutated by `set_model`. -/
structure ClientState where
  base_url : List Char
  model : List Char
  timeout : Nat
deriving DecidableEq, Repr

/-- `OllamaClient.set_model`. -/
def set_model (st : ClientState) (m : List Char) : ClientState := { st with model := m }

/-- One `{role, content}` entry of a chat request. -/
structure ChatMsg where
  role : List Char
  content : List Char
deriving DecidableEq, Repr

/-- The backend request body built by `_create_chat_payload`. -/
structure Payload where
  model : List Char
  messages : List ChatMsg
  stream : Bool
deriving DecidableEq, Repr

/-- `OllamaClient._create_chat_payload`. -/
def create_chat_payload (st : ClientState) (messages : List ChatMsg) (stream : Bool) :
    Payload :=
  ⟨st.model, messages, stream⟩

/-- Transport and backend exceptions visible to the gateway's error handling:
`requests.exceptions.Timeout`, `requests.exceptions.ConnectionError`, the
`requests.HTTPError` raised by `handle_api_response` (carrying the response
status and body), and the `AttributeError` raised when the payload's
`message` value is not a dict.  The attached text of the `AttributeError`
stands in for Python's exception message. -/
inductive ApiError where
  | timeout
  | connectionError
  | httpError (status : Nat) (body : List Char)
  | attributeError
deriving DecidableEq, Repr

/-- Stand-in for `str(AttributeError(...))` in the formatted error text. -/
def attributeErrorText : List Char := "object has no attribute get".data

/-- A backend HTTP response: status code, the JSON body if `response.json()`
succeeds, and the raw body text. -/
structure Response where
  status : Nat
  jsonBody : Option JVal
  text : List Char

/-- `APIUtils.format_user_friendly_error`: classify the exception and produce
a short user-facing message.  For an HTTP error the status code is included
only when the attached response is truthy (Python `Response.__bool__` is
`status < 400`); otherwise Python interpolates `None`. -/
def format_user_friendly_error (e : ApiError) (service : List Char) : List Char :=
  match e with
  | .timeout => service ++ " request timed out".data
  | .connectionError => service ++ " could not connect to the server".data
  | .httpError status _ =>
    service ++ " error occurred: ".data ++
      (if status < 400 then (toString status).data else "None".data)
  | .attributeError =>
    service ++ " unexpected error occurred: ".data ++ attributeErrorText

/-- `APIUtils.handle_api_response`: 2xx success codes are parsed as JSON
(falling back to the raw text when the body is not JSON); any other status
raises `requests.HTTPError`. -/
def handle_api_response (r : Response) : Except ApiError (JVal ⊕ List Char) :=
  if r.status = 200 ∨ r.status = 201 ∨ r.status = 202 then
    match r.jsonBody with
    | some j => .ok (.inl j)
    | none => .ok (.inr r.text)
  else .error (.httpError r.status r.text)

/-- First-match lookup of a key in a JSON object's field list (Python `dict`
access; parsed JSON objects have unique keys). -/
def lookupField (fields : List (List Char × JVal)) (k : List Char) : Option JVal :=
  match fields with
  | [] => none
  | (k2, v) :: rest => if k2 = k then some v else lookupField rest k

/-- The service name interpolated into gateway error messages. -/
def ollamaName : List Char := "Ollama".data

/-- `OllamaClient.chat`: one backend call; non-2xx statuses, transport errors
and the `AttributeError` on a non-dict `message` value are caught by the
`except` clause and formatted; a dict payload with a `message` dict yields its
`content` (default empty); any other payload is stringified (`str(result)`).
Python would return a non-string `content` value unchanged; since replies are
typed as text here, that branch is rendered with its string form. -/
def chat (st : ClientState) (messages : List ChatMsg)
    (backend : Payload → Except ApiError Response) : List Char :=
  match backend (create_chat_payload st messages false) with
  | .error e => format_user_friendly_error e ollamaName
  | .ok resp =>
    match handle_api_response resp with
    | .error e => format_user_friendly_error e ollamaName
    | .ok (.inr txt) => txt
    | .ok (.inl j) =>
      match j with
      | .jobj fields =>
        match lookupField fields "message".data with
        | some (.jobj mfields) =>
          match lookupField mfields "content".data with
          | some (.jstr s) => s
          | some v => pyStr v
          | none => []
        | some _ => format_user_friendly_error .attributeError ollamaName
        | none => pyStr (.jobj fields)
      | _ => pyStr j

/-- The role of the synthetic system message prepended by `ask`. -/
def sysRole : List Char := "system".data

/-- `OllamaClient.ask` before the `handle_sync` decorator: apply the model
override (Python truthiness: an empty-string override is ignored), prepend
the system prompt to a copy of the history, make the single `chat` call, and
restore the original model.  `chat` catches every exception of its body, so
the `except` branch of `ask` (which also restores the model before
re-raising) is not reachable; the `Except` result records that no exception
escapes. -/
def askE (st : ClientState) (messages : List ChatMsg)
    (system_prompt model_name : Option (List Char))
    (backend : Payload → Except ApiError Response) :
    Except ApiError (List Char) × ClientState :=
  let st1 := match model_name with
    | some m => if m ≠ [] then set_model st m else st
    | none => st
  let processed := match system_prompt with
    | some s => if s ≠ [] then ⟨sysRole, s⟩ :: messages else messages
    | none => messages
  let result := chat st1 processed backend
  let st2 := match model_name with
    | some m => if m ≠ [] then set_model st1 st.model else st1
    | none => st1
  (.ok result, st2)

/-- `OllamaClient.ask` as seen by callers: the `handle_sync` decorator turns
any escaped exception into the empty-string fallback. -/
def ask (st : ClientState) (messages : List ChatMsg)
    (system_prompt model_name : Option (List Char))
    (backend : Payload → Except ApiError Response) : List Char × ClientState :=
  match askE st messages system_prompt model_name backend with
  | (.ok s, st2) => (s, st2)
  | (.error _, st2) => ([], st2)

/-- `LLMClientManager.ask` for the only configured provider. -/
def manager_ask (st : ClientState) (provider : List Char) (messages : List ChatMsg)
    (system_prompt model_name : Option (List Char))
    (backend : Payload → Except ApiError Response) : List Char × ClientState :=
  if provider = "ollama".data then ask st messages system_prompt model_name backend
  else ("Unknown provider: ".data ++ provider, st)

/-! ## Conversation orchestrator (`chat_bot.py`) -/

/-- An inbound Slack `message` event, §6 shape: `text` is read with
`event.get("text", "")`, `thread_ts`/`bot_id`/`subtype` are optional, and
`user`/`ts` are required fields of the platform event. -/
structure SlackEvent where
  text : Option (List Char)
  user : List Char
  ts : List Char
  thread_ts : Option (List Char)
  bot_id : Option (List Char)
  subtype : Option (List Char)
deriving DecidableEq, Repr

/-- Python truthiness of `event.get(key)`: present and non-empty. -/
def optTruthy (o : Option (List Char)) : Bool :=
  match o with
  | some s => s ≠ []
  | none => false

/-- The notice sent when a chat turn arrives with an empty user message. -/
def emptyMessageNotice : List Char :=
  "Message is empty. Do you have anything to ask?".data

/-- The reply sent by the `/clear` command. -/
def clearNotice : List Char :=
  "The conversation history in this thread has been cleared.".data

/-- `ChatBot._get_help_message` (static help text). -/
def helpMessage : List Char :=
  "**Slack LLM Chat Bot Help** Basic Usage: @bot Hello - Chat with the default (Ollama); /clear - Clear the conversation history; /help - Display this help.".data

/-- The fallback substituted inside `_query_llm` when the provider returns an
empty or whitespace-only reply. -/
def ollamaEmptyFallback : List Char :=
  "Sorry, I couldn".data ++ [squote] ++ "t get a response from Ollama.".data

/-- The fallback substituted inside `_process_user_input` when `_query_llm`
returns an empty or whitespace-only reply. -/
def llmEmptyFallback : List Char :=
  "Sorry, I couldn".data ++ [squote] ++ "t get a response from the LLM. Please try again.".data

/-- Stand-in for the `f"An error occurred: {str(e)}"` notice sent by
`_process_user_input`'s own exception handler when a storage write raises. -/
def processErrorNotice : List Char :=
  "An error occurred: database error".data

/-- `ChatBot._query_llm`: one `LLMClientManager.ask` call with the fixed
`"ollama"` provider, substituting a fixed fallback when the reply is empty or
whitespace-only. -/
def query_llm (client : ClientState) (history : List ChatMsg)
    (system_prompt model_name : Option (List Char))
    (backend : Payload → Except ApiError Response) : List Char × ClientState :=
  let r := manager_ask client "ollama".data history system_prompt model_name backend
  if pyStrip r.1 = [] then (ollamaEmptyFallback, r.2) else r

/-- `ChatBot._process_user_input`: dispatch `/clear` and `/help`, guard empty
chat input, append the user row, read the bounded history, query the LLM,
substitute a fallback for an empty reply, append the assistant row, and send
the reply.  Raised storage errors are caught by the function's own `except`
clause, which sends the error notice instead.  The result is the store, the
client state, and the list of `(text, thread_ts)` replies sent. -/
def process_user_input (store : Store) (client : ClientState)
    (backend : Payload → Except ApiError Response)
    (command user_message : List Char) (system_prompt model_name : Option (List Char))
    (thread_ts : List Char) : Store × ClientState × List (List Char × List Char) :=
  if command = cmdClear then
    match clear_thread_history store thread_ts with
    | .ok s2 =>
      (s2, client, if clearNotice ≠ [] ∧ pyStrip clearNotice ≠ [] then
        [(clearNotice, thread_ts)] else [])
    | .error _ => (store, client, [(processErrorNotice, thread_ts)])
  else if command = cmdHelp then
    (store, client, if helpMessage ≠ [] ∧ pyStrip helpMessage ≠ [] then
      [(helpMessage, thread_ts)] else [])
  else if pyStrip user_message = [] then
    (store, client, [(emptyMessageNotice, thread_ts)])
  else
    match add_message store thread_ts "user".data user_message with
    | .error _ => (store, client, [(processErrorNotice, thread_ts)])
    | .ok s2 =>
      let history := (get_history s2 thread_ts 20).map (fun rc => ChatMsg.mk rc.1 rc.2)
      let q := query_llm client history system_prompt model_name backend
      let response := if pyStrip q.1 = [] then llmEmptyFallback else q.1
      match add_message s2 thread_ts "assistant".data response with
      | .error _ => (s2, q.2, [(processErrorNotice, thread_ts)])
      | .ok s3 => (s3, q.2, [(response, thread_ts)])

/-- `ChatBot._handle_message` (plain thread-reply entry point): ignore bot or
subtyped events, top-level messages, threads without stored history, and
empty text; otherwise parse the text and run the shared
`_process_user_input` path. -/
def handle_message (store : Store) (client : ClientState)
    (backend : Payload → Except ApiError Response) (ev : SlackEvent) :
    Store × ClientState × List (List Char × List Char) :=
  if optTruthy ev.bot_id || optTruthy ev.subtype then (store, client, [])
  else
    match ev.thread_ts with
    | none => (store, client, [])
    | some tts =>
      let text := ev.text.getD []
      if ¬ has_thread_history store tts then (store, client, [])
      else if pyStrip text = [] then (store, client, [])
      else
        let p := parse_thread_message text
        process_user_input store client backend p.command p.userMessage
          p.systemPrompt p.modelName tts

/-! ## Supporting definitions for the stated properties -/

/-- The rows of a thread in chronological (insertion, ascending id) order. -/
def chron (db : DB) (t : List Char) : List Row :=
  db.rows.filter (fun r => r.thread_id = t)

/-- The reconstruction described by the spec's parser-idempotence property:
the command's slash prefix recombined with the residual user message, with no
directives.  Modelled from the spec: `parsing the parser's own reconstructed
text (command + userMessage recombined without directives)`. -/
def reconstruct (p : Parsed) : List Char :=
  if p.command = cmdClear then "/clear".data
  else if p.command = cmdHelp then "/help".data
  else "/ollama ".data ++ p.userMessage

/-- `add_message` with the success projected out (usable when the store is
not in the failing state). -/
def addOk (s : Store) (t role content : List Char) : Store :=
  match add_message s t role content with
  | .ok s2 => s2
  | .error _ => s

/-- A fresh, healthy store. -/
def emptyStore : Store := ⟨⟨[], 1⟩, false⟩

/-- The spec's three-message history-ordering scenario. -/
def exampleStore : Store :=
  addOk (addOk (addOk emptyStore "T".data "user".data "a".data)
    "T".data "assistant".data "b".data) "T".data "user".data "c".data

/-- A backend oracle that echoes the model name of the payload it was called
with inside a well-formed reply, making the model used for the call
observable in the returned text. -/
def echoBackend : Payload → Except ApiError Response :=
  fun p => .ok ⟨200, some (.jobj [("message".data,
    .jobj [("content".data, .jstr p.model)])]), []⟩

/-- A concrete gateway client configuration for concrete instances. -/
def exampleClient : ClientState := ⟨"http://localhost:11434".data, "llama3".data, 30⟩

/-! ## Helper lemmas -/

theorem insertDesc_of_forall_lt {x : Row} {l : List Row} (h : ∀ y ∈ l, x.id < y.id) :
    insertDesc x l = l ++ [x] := by
  induction l with
  | nil => rfl
  | cons y ys ih =>
    unfold insertDesc
    rw [if_neg (by have := h y (List.mem_cons_self y ys); omega)]
    rw [ih (fun z hz => h z (List.mem_cons_of_mem _ hz))]
    simp

theorem sortDesc_of_pairwise {l : List Row}
    (h : List.Pairwise (fun a b : Row => a.id < b.id) l) :
    sortDesc l = l.reverse := by
  induction l with
  | nil => rfl
  | cons x xs ih =>
    rw [List.pairwise_cons] at h
    unfold sortDesc
    rw [ih h.2, insertDesc_of_forall_lt (fun y hy => h.1 y (by simpa using hy))]
    simp

theorem mem_of_clear_ok {s s2 : Store} {t : List Char} {r : Row}
    (h : clear_thread_history s t = .ok s2) (hr : r ∈ s2.db.rows) : r ∈ s.db.rows := by
  unfold clear_thread_history at h
  split at h
  · cases h
  · cases h
    exact (List.mem_filter.mp hr).1

theorem mem_of_add_ok {s s2 : Store} {t role content : List Char} {r : Row}
    (h : add_message s t role content = .ok s2) (hr : r ∈ s2.db.rows) :
    r ∈ s.db.rows ∨ r.content = content := by
  unfold add_message at h
  split at h
  · cases h
  · cases h
    simp only [List.mem_append, List.mem_singleton] at hr
    cases hr with
    | inl hl => exact Or.inl hl
    | inr hr => right; rw [hr]

theorem chat_http {st : ClientState} {messages : List ChatMsg} {status : Nat}
    {jb : Option JVal} {txt : List Char}
    (h : ¬(status = 200 ∨ status = 201 ∨ status = 202)) :
    chat st messages (fun _ => .ok ⟨status, jb, txt⟩) =
      "Ollama error occurred: ".data ++
        (if status < 400 then (toString status).data else "None".data) := by
  have hh : handle_api_response ⟨status, jb, txt⟩ = .error (.httpError status txt) := by
    unfold handle_api_response
    rw [if_neg h]
  unfold chat
  simp only [hh]
  rfl

theorem handle_message_silent {store : Store} {client : ClientState}
    {backend : Payload → Except ApiError Response} {ev : SlackEvent}
    (h : optTruthy ev.bot_id = true ∨ optTruthy ev.subtype = true ∨ ev.thread_ts = none ∨
      (∀ tts, ev.thread_ts = some tts → has_thread_history store tts = false) ∨
      pyStrip (ev.text.getD []) = []) :
    handle_message store client backend ev = (store, client, []) := by
  unfold handle_message
  by_cases hb : (optTruthy ev.bot_id || optTruthy ev.subtype) = true
  · rw [if_pos hb]
  · rw [if_neg hb]
    rw [Bool.or_eq_true] at hb
    push_neg at hb
    cases hts : ev.thread_ts with
    | none => rfl
    | some tts =>
      simp only
      rcases h with h | h | h | h | h
      · exact absurd h hb.1
      · exact absurd h hb.2
      · rw [hts] at h; cases h
      · have hf := h tts hts
        rw [if_pos (by simp [hf])]
      · by_cases hh : has_thread_history store tts = true
        · rw [if_neg (by simp [hh]), if_pos h]
        · rw [if_pos (by simp at hh; simp [hh])]

theorem matchDirAt_some_length {key l co af} (h : matchDirAt key l = some (co, af)) :
    af.length < l.length := by
  unfold matchDirAt at h
  split at h
  · rename_i hp
    simp only at h
    split at h
    · rename_i c after heq
      split at h
      · cases h
        have h1 : (l.drop key.length).length ≤ l.length := by
          rw [List.length_drop]; omega
        have h2 := congrArg List.length heq
        rw [List.length_drop] at h2
        simp only [List.length_cons] at h2
        omega
      · cases h
    · cases h
  · cases h

theorem removeAllDirGo_fuel {key : List Char} :
    ∀ f1 f2 l, l.length ≤ f1 → l.length ≤ f2 →
      removeAllDirGo key f1 l = removeAllDirGo key f2 l := by
  intro f1
  induction f1 using Nat.strong_induction_on with
  | _ f1 ih =>
    intro f2 l h1 h2
    match l, f1, f2 with
    | [], 0, 0 => rfl
    | [], 0, _ + 1 => rfl
    | [], _ + 1, 0 => rfl
    | [], _ + 1, _ + 1 => rfl
    | c :: rest, fa + 1, fb + 1 =>
      simp only [removeAllDirGo]
      cases hm : matchDirAt key (c :: rest) with
      | some p =>
        have hlen := matchDirAt_some_length
          (show matchDirAt key (c :: rest) = some (p.1, p.2) by rw [hm])
        simp only [List.length_cons] at h1 h2 hlen
        exact ih fa (by omega) fb p.2 (by omega) (by omega)
      | none =>
        simp only [List.length_cons] at h1 h2
        rw [ih fa (by omega) fb rest (by omega) (by omega)]

theorem removeAllDir_nil {key : List Char} : removeAllDir key [] = [] := rfl

theorem removeAllDir_cons_none {key c rest} (h : matchDirAt key (c :: rest) = none) :
    removeAllDir key (c :: rest) = c :: removeAllDir key rest := by
  simp only [removeAllDir, List.length_cons, removeAllDirGo, h]

theorem removeAllDir_cons_some {key c rest co after}
    (h : matchDirAt key (c :: rest) = some (co, after)) :
    removeAllDir key (c :: rest) = removeAllDir key after := by
  have hlen := matchDirAt_some_length h
  simp only [List.length_cons] at hlen
  simp only [removeAllDir, List.length_cons, removeAllDirGo, h]
  exact removeAllDirGo_fuel _ _ _ (by omega) (by omega)

theorem matchMentionAt_some_length {l af} (h : matchMentionAt l = some af) :
    af.length < l.length := by
  unfold matchMentionAt at h
  split at h
  · rename_i c1 c2 rest
    split at h
    · simp only at h
      split at h
      · cases h
      · split at h
        · rename_i c after heq
          split at h
          · cases h
            have h2 := congrArg List.length heq
            rw [List.length_drop] at h2
            simp only [List.length_cons] at h2 ⊢
            omega
          · cases h
        · cases h
    · cases h
  · cases h

theorem removeMentionsGo_fuel :
    ∀ f1 f2 l, l.length ≤ f1 → l.length ≤ f2 →
      removeMentionsGo f1 l = removeMentionsGo f2 l := by
  intro f1
  induction f1 using Nat.strong_induction_on with
  | _ f1 ih =>
    intro f2 l h1 h2
    match l, f1, f2 with
    | [], 0, 0 => rfl
    | [], 0, _ + 1 => rfl
    | [], _ + 1, 0 => rfl
    | [], _ + 1, _ + 1 => rfl
    | c :: rest, fa + 1, fb + 1 =>
      simp only [removeMentionsGo]
      cases hm : matchMentionAt (c :: rest) with
      | some after =>
        have hlen := matchMentionAt_some_length hm
        simp only [List.length_cons] at h1 h2 hlen
        exact ih fa (by omega) fb after (by omega) (by omega)
      | none =>
        simp only [List.length_cons] at h1 h2
        rw [ih fa (by omega) fb rest (by omega) (by omega)]

theorem removeMentions_nil : removeMentions [] = [] := rfl

theorem removeMentions_cons_none {c rest} (h : matchMentionAt (c :: rest) = none) :
    removeMentions (c :: rest) = c :: removeMentions rest := by
  simp only [removeMentions, List.length_cons, removeMentionsGo, h]

theorem lstrip_cons_of_neg {c : Char} {l : List Char} (h : isWS c = false) :
    lstrip (c :: l) = c :: l := by
  simp [lstrip, List.dropWhile_cons, h]

theorem rstrip_concat_neg {x : Char} {l : List Char} (h : isWS x = false) :
    rstrip (l ++ [x]) = l ++ [x] :=
  List.rdropWhile_concat_neg isWS l x (by simp [h])

theorem pyStrip_of_bounds {t : List Char} (h1 : lstrip t = t) (h2 : rstrip t = t) :
    pyStrip t = t := by
  unfold pyStrip
  rw [h1, h2]

theorem head_not_ws_of_dropWhile_eq {c : Char} {rest : List Char}
    (h : List.dropWhile isWS (c :: rest) = c :: rest) : isWS c = false := by
  by_contra hc
  rw [Bool.not_eq_false] at hc
  rw [List.dropWhile_cons, if_pos hc] at h
  have hle := ((List.dropWhile_suffix (l := rest) isWS).sublist).length_le
  have := congrArg List.length h
  simp only [List.length_cons] at this
  omega

theorem pyStrip_idem (l : List Char) : pyStrip (pyStrip l) = pyStrip l := by
  unfold pyStrip rstrip lstrip
  have hxx : (l.dropWhile isWS).dropWhile isWS = l.dropWhile isWS :=
    List.dropWhile_idempotent isWS l
  have hdrop : ((l.dropWhile isWS).rdropWhile isWS).dropWhile isWS =
      (l.dropWhile isWS).rdropWhile isWS := by
    cases hc : (l.dropWhile isWS).rdropWhile isWS with
    | nil => simp
    | cons c y =>
      obtain ⟨t, ht⟩ := List.rdropWhile_prefix isWS (l.dropWhile isWS)
      rw [hc] at ht
      have hx : l.dropWhile isWS = c :: (y ++ t) := by
        rw [← ht]; simp
      have hcws : isWS c = false :=
        head_not_ws_of_dropWhile_eq (by rw [← hx]; exact hxx)
      simp [List.dropWhile_cons, hcws]
  rw [hdrop, List.rdropWhile_idempotent]

theorem stripped_lstrip {m : List Char} (h : pyStrip m = m) : lstrip m = m := by
  unfold pyStrip rstrip lstrip at h
  unfold lstrip
  have h1 := (List.rdropWhile_prefix isWS (m.dropWhile isWS)).sublist.length_le
  have h2s := List.dropWhile_suffix (l := m) isWS
  have h2 := h2s.sublist.length_le
  have hlen := congrArg List.length h
  exact h2s.sublist.eq_of_length (by omega)

theorem stripped_rstrip {m : List Char} (h : pyStrip m = m) : rstrip m = m := by
  have hl := stripped_lstrip h
  unfold pyStrip at h
  rw [hl] at h
  exact h

theorem rstrip_append_of_stripped {a m : List Char} (h : rstrip m = m) (hm : m ≠ []) :
    rstrip (a ++ m) = a ++ m := by
  unfold rstrip at h ⊢
  rw [List.rdropWhile_eq_self_iff] at h ⊢
  intro hne
  rw [List.getLast_append' a m hm]
  exact h hm

theorem pyStrip_cons_ws {c : Char} {l : List Char} (h : isWS c = true) :
    pyStrip (c :: l) = pyStrip l := by
  unfold pyStrip lstrip
  rw [List.dropWhile_cons, if_pos h]

theorem matchDirAt_cons_ne {k c : Char} {ks rest : List Char} (h : ¬ c = k) :
    matchDirAt (k :: ks) (c :: rest) = none := by
  unfold matchDirAt
  rw [if_neg]
  intro hp
  rw [List.isPrefixOf_iff_prefix] at hp
  obtain ⟨t, ht⟩ := hp
  simp only [List.cons_append] at ht
  exact h (List.head_eq_of_cons_eq ht).symm

theorem matchDirAt_cons2_ne {k1 k2 c : Char} {ks rest : List Char} (h : ¬ c = k2) :
    matchDirAt (k1 :: k2 :: ks) (k1 :: c :: rest) = none := by
  unfold matchDirAt
  rw [if_neg]
  intro hp
  rw [List.isPrefixOf_iff_prefix] at hp
  obtain ⟨t, ht⟩ := hp
  simp only [List.cons_append] at ht
  have := List.head_eq_of_cons_eq (List.tail_eq_of_cons_eq ht)
  exact h this.symm

theorem takeWhile_middle {p : Char → Bool} {a rest : List Char} {x : Char}
    (ha : ∀ c ∈ a, p c = true) (hx : p x = false) :
    (a ++ x :: rest).takeWhile p = a := by
  induction a with
  | nil => simp [List.takeWhile_cons, hx]
  | cons c t ih =>
    simp only [List.cons_append, List.takeWhile_cons]
    rw [if_pos (ha c (List.mem_cons_self c t))]
    rw [ih (fun d hd => ha d (List.mem_cons_of_mem c hd))]

theorem matchDirAt_at_key {key a rest : List Char} (ha : ∀ c ∈ a, ¬ c = quoteChar) :
    matchDirAt key (key ++ (a ++ quoteChar :: rest)) = some (a, rest) := by
  unfold matchDirAt
  rw [if_pos]
  · simp only [List.drop_left]
    have ht : (a ++ quoteChar :: rest).takeWhile (fun c => c ≠ quoteChar) = a := by
      apply takeWhile_middle
      · intro c hc
        simp [ha c hc]
      · simp
    rw [ht, List.drop_left]
    simp
  · rw [List.isPrefixOf_iff_prefix]
    exact List.prefix_append key _

theorem findDir_cons_some {key : List Char} {c : Char} {rest co af : List Char}
    (h : matchDirAt key (c :: rest) = some (co, af)) :
    findDir key (c :: rest) = some co := by
  simp [findDir, h]

theorem findDir_cons_none {key : List Char} {c : Char} {rest : List Char}
    (h : matchDirAt key (c :: rest) = none) :
    findDir key (c :: rest) = findDir key rest := by
  simp [findDir, h]

theorem findDir_none_of_ne {k : Char} {ks l : List Char} (h : ∀ c ∈ l, ¬ c = k) :
    findDir (k :: ks) l = none := by
  induction l with
  | nil => rfl
  | cons c rest ih =>
    rw [findDir_cons_none (matchDirAt_cons_ne (h c (List.mem_cons_self c rest)))]
    exact ih (fun d hd => h d (List.mem_cons_of_mem c hd))

theorem matchMentionAt_cons_ne {c : Char} {rest : List Char} (h : ¬ c = ltChar) :
    matchMentionAt (c :: rest) = none := by
  cases rest with
  | nil => rfl
  | cons c2 r =>
    simp only [matchMentionAt]
    rw [if_neg]
    intro hp
    exact h hp.1

theorem removeMentions_eq_self_of_ne {l : List Char} (h : ∀ c ∈ l, ¬ c = ltChar) :
    removeMentions l = l := by
  induction l with
  | nil => rfl
  | cons c rest ih =>
    rw [removeMentions_cons_none (matchMentionAt_cons_ne (h c (List.mem_cons_self c rest)))]
    rw [ih (fun d hd => h d (List.mem_cons_of_mem c hd))]

theorem removeMentions_append_of_ne {a l : List Char} (ha : ∀ c ∈ a, ¬ c = ltChar) :
    removeMentions (a ++ l) = a ++ removeMentions l := by
  induction a with
  | nil => simp
  | cons c t ih =>
    simp only [List.cons_append]
    rw [removeMentions_cons_none (matchMentionAt_cons_ne (ha c (List.mem_cons_self c t)))]
    rw [ih (fun d hd => ha d (List.mem_cons_of_mem c hd))]


theorem findDir_of_match {key l co af : List Char} (hne : l ≠ [])
    (h : matchDirAt key l = some (co, af)) : findDir key l = some co := by
  cases l with
  | nil => cases hne rfl
  | cons c rest => simp [findDir, h]

theorem removeAllDir_of_match {key l co af : List Char} (hne : l ≠ [])
    (h : matchDirAt key l = some (co, af)) :
    removeAllDir key l = removeAllDir key af := by
  cases l with
  | nil => cases hne rfl
  | cons c rest => exact removeAllDir_cons_some h

theorem removeAllDir_cons_ne {k c : Char} {ks rest : List Char} (h : ¬ c = k) :
    removeAllDir (k :: ks) (c :: rest) = c :: removeAllDir (k :: ks) rest :=
  removeAllDir_cons_none (matchDirAt_cons_ne h)

theorem sysKey_no_lt : ∀ c ∈ sysKey, ¬ c = ltChar := by
  intro c hc
  simp only [sysKey] at hc
  fin_cases hc <;> decide

theorem parse_two_sys_directives (a b : List Char)
    (ha : ∀ c ∈ a, ¬ c = quoteChar ∧ ¬ c = ltChar)
    (hb : ∀ c ∈ b, ¬ c = quoteChar ∧ ¬ c = ltChar) :
    parse_command_and_message
      (sysKey ++ (a ++ quoteChar :: (' ' :: 'x' :: ' ' :: (sysKey ++ (b ++ [quoteChar]))))) =
      ⟨cmdOllama, "x".data, some a, none⟩ := by
  set rest1 : List Char := ' ' :: 'x' :: ' ' :: (sysKey ++ (b ++ [quoteChar])) with hrest1
  set t : List Char := sysKey ++ (a ++ quoteChar :: rest1) with hts
  have hne : t ≠ [] := by
    rw [hts]
    intro h
    have := congrArg List.length h
    simp [sysKey] at this
  have ha' : ∀ c ∈ a, ¬ c = quoteChar := fun c hc => (ha c hc).1
  have hb' : ∀ c ∈ b, ¬ c = quoteChar := fun c hc => (hb c hc).1
  have hlt : ∀ c ∈ t, ¬ c = ltChar := by
    rw [hts, hrest1]
    simp only [List.forall_mem_append, List.forall_mem_cons, List.not_mem_nil,
      false_implies, implies_true, and_true]
    refine ⟨sysKey_no_lt, fun c hc => (ha c hc).2, by decide, by decide, by decide,
      by decide, sysKey_no_lt, fun c hc => (hb c hc).2, by decide⟩
  have hmen : removeMentions t = t := removeMentions_eq_self_of_ne hlt
  have hstrip : pyStrip t = t := by
    apply pyStrip_of_bounds
    · rw [hts]
      show lstrip ('s' :: _) = _
      exact lstrip_cons_of_neg (by decide)
    · have ht2 : t = (sysKey ++ a ++ [quoteChar] ++ [' ', 'x', ' '] ++ sysKey ++ b) ++
          [quoteChar] := by
        rw [hts, hrest1]
        simp [List.append_assoc]
      rw [ht2]
      exact rstrip_concat_neg (by decide)
  have hclean : clean_mention_text t = t := by
    unfold clean_mention_text
    rw [hmen, hstrip]
  have hm1 : matchDirAt sysKey t = some (a, rest1) := matchDirAt_at_key ha'
  have hfind : findDir sysKey t = some a := findDir_of_match hne hm1
  have hm2 : matchDirAt sysKey (sysKey ++ (b ++ [quoteChar])) = some (b, []) :=
    matchDirAt_at_key hb'
  have hne2 : sysKey ++ (b ++ [quoteChar]) ≠ [] := by
    intro h
    have := congrArg List.length h
    simp [sysKey] at this
  have hrem : removeAllDir sysKey t = " x ".data := by
    have s1 : removeAllDir sysKey t = removeAllDir sysKey rest1 :=
      removeAllDir_of_match hne hm1
    have s2 : removeAllDir sysKey rest1 =
        ' ' :: removeAllDir sysKey ('x' :: ' ' :: (sysKey ++ (b ++ [quoteChar]))) := by
      rw [hrest1]
      exact removeAllDir_cons_ne (by decide)
    have s3 : removeAllDir sysKey ('x' :: ' ' :: (sysKey ++ (b ++ [quoteChar]))) =
        'x' :: removeAllDir sysKey (' ' :: (sysKey ++ (b ++ [quoteChar]))) :=
      removeAllDir_cons_ne (by decide)
    have s4 : removeAllDir sysKey (' ' :: (sysKey ++ (b ++ [quoteChar]))) =
        ' ' :: removeAllDir sysKey (sysKey ++ (b ++ [quoteChar])) :=
      removeAllDir_cons_ne (by decide)
    have s5 : removeAllDir sysKey (sysKey ++ (b ++ [quoteChar])) =
        removeAllDir sysKey [] :=
      removeAllDir_of_match hne2 hm2
    rw [s1, s2, s3, s4, s5, removeAllDir_nil]
  have hsys : extractDir sysKey t = (some a, "x".data) := by
    unfold extractDir
    rw [hfind, hrem]
    have hps : pyStrip " x ".data = "x".data := by decide
    rw [hps]
  have hmod : extractDir modelKey "x".data = (none, "x".data) := by decide
  have hcls : classifyCommand "x".data = (cmdOllama, "x".data) := by decide
  show parse_command_and_message t = _
  simp only [parse_command_and_message]
  rw [hclean, hsys]
  rfl

theorem modelKey_no_lt : ∀ c ∈ modelKey, ¬ c = ltChar := by
  intro c hc
  simp only [modelKey] at hc
  fin_cases hc <;> decide

theorem modelKey_no_s : ∀ c ∈ modelKey, ¬ c = 's' := by
  intro c hc
  simp only [modelKey] at hc
  fin_cases hc <;> decide

theorem parse_two_model_directives (a b : List Char)
    (ha : ∀ c ∈ a, ¬ c = quoteChar ∧ ¬ c = ltChar ∧ ¬ c = 's')
    (hb : ∀ c ∈ b, ¬ c = quoteChar ∧ ¬ c = ltChar ∧ ¬ c = 's') :
    parse_command_and_message
      (modelKey ++ (a ++ quoteChar :: (' ' :: 'x' :: ' ' :: (modelKey ++ (b ++ [quoteChar]))))) =
      ⟨cmdOllama, "x".data, none, some a⟩ := by
  set rest1 : List Char := ' ' :: 'x' :: ' ' :: (modelKey ++ (b ++ [quoteChar])) with hrest1
  set t : List Char := modelKey ++ (a ++ quoteChar :: rest1) with hts
  have hne : t ≠ [] := by
    rw [hts]
    intro h
    have := congrArg List.length h
    simp [modelKey] at this
  have ha' : ∀ c ∈ a, ¬ c = quoteChar := fun c hc => (ha c hc).1
  have hb' : ∀ c ∈ b, ¬ c = quoteChar := fun c hc => (hb c hc).1
  have hlt : ∀ c ∈ t, ¬ c = ltChar := by
    rw [hts, hrest1]
    simp only [List.forall_mem_append, List.forall_mem_cons, List.not_mem_nil,
      false_implies, implies_true, and_true]
    refine ⟨modelKey_no_lt, fun c hc => (ha c hc).2.1, by decide, by decide, by decide,
      by decide, modelKey_no_lt, fun c hc => (hb c hc).2.1, by decide⟩
  have hmen : removeMentions t = t := removeMentions_eq_self_of_ne hlt
  have hstrip : pyStrip t = t := by
    apply pyStrip_of_bounds
    · rw [hts]
      show lstrip ('m' :: _) = _
      exact lstrip_cons_of_neg (by decide)
    · have ht2 : t = (modelKey ++ a ++ [quoteChar] ++ [' ', 'x', ' '] ++ modelKey ++ b) ++
          [quoteChar] := by
        rw [hts, hrest1]
        simp [List.append_assoc]
      rw [ht2]
      exact rstrip_concat_neg (by decide)
  have hclean : clean_mention_text t = t := by
    unfold clean_mention_text
    rw [hmen, hstrip]
  have hnos : ∀ c ∈ t, ¬ c = 's' := by
    rw [hts, hrest1]
    simp only [List.forall_mem_append, List.forall_mem_cons, List.not_mem_nil,
      false_implies, implies_true, and_true]
    refine ⟨modelKey_no_s, fun c hc => (ha c hc).2.2, by decide, by decide, by decide,
      by decide, modelKey_no_s, fun c hc => (hb c hc).2.2, by decide⟩
  have hsfind : findDir sysKey t = none := findDir_none_of_ne hnos
  have hsys : extractDir sysKey t = (none, t) := by
    unfold extractDir
    rw [hsfind]
  have hm1 : matchDirAt modelKey t = some (a, rest1) := matchDirAt_at_key ha'
  have hfind : findDir modelKey t = some a := findDir_of_match hne hm1
  have hm2 : matchDirAt modelKey (modelKey ++ (b ++ [quoteChar])) = some (b, []) :=
    matchDirAt_at_key hb'
  have hne2 : modelKey ++ (b ++ [quoteChar]) ≠ [] := by
    intro h
    have := congrArg List.length h
    simp [modelKey] at this
  have hrem : removeAllDir modelKey t = " x ".data := by
    have s1 : removeAllDir modelKey t = removeAllDir modelKey rest1 :=
      removeAllDir_of_match hne hm1
    have s2 : removeAllDir modelKey rest1 =
        ' ' :: removeAllDir modelKey ('x' :: ' ' :: (modelKey ++ (b ++ [quoteChar]))) := by
      rw [hrest1]
      exact removeAllDir_cons_ne (by decide)
    have s3 : removeAllDir modelKey ('x' :: ' ' :: (modelKey ++ (b ++ [quoteChar]))) =
        'x' :: removeAllDir modelKey (' ' :: (modelKey ++ (b ++ [quoteChar]))) :=
      removeAllDir_cons_ne (by decide)
    have s4 : removeAllDir modelKey (' ' :: (modelKey ++ (b ++ [quoteChar]))) =
        ' ' :: removeAllDir modelKey (modelKey ++ (b ++ [quoteChar])) :=
      removeAllDir_cons_ne (by decide)
    have s5 : removeAllDir modelKey (modelKey ++ (b ++ [quoteChar])) =
        removeAllDir modelKey [] :=
      removeAllDir_of_match hne2 hm2
    rw [s1, s2, s3, s4, s5, removeAllDir_nil]
  have hmod : extractDir modelKey t = (some a, "x".data) := by
    unfold extractDir
    rw [hfind, hrem]
    have hps : pyStrip " x ".data = "x".data := by decide
    rw [hps]
  show parse_command_and_message t = _
  simp only [parse_command_and_message]
  rw [hclean, hsys]
  simp only []
  rw [hmod]
  rfl

theorem findDir_cons_ne {k c : Char} {ks rest : List Char} (h : ¬ c = k) :
    findDir (k :: ks) (c :: rest) = findDir (k :: ks) rest :=
  findDir_cons_none (matchDirAt_cons_ne h)

theorem findDir_cons2_ne {k1 k2 c : Char} {ks rest : List Char} (h : ¬ c = k2) :
    findDir (k1 :: k2 :: ks) (k1 :: c :: rest) = findDir (k1 :: k2 :: ks) (c :: rest) :=
  findDir_cons_none (matchDirAt_cons2_ne h)

theorem extractDir_snd_stripped {key x : List Char} (h : pyStrip x = x) :
    pyStrip (extractDir key x).2 = (extractDir key x).2 := by
  unfold extractDir
  cases hf : findDir key x with
  | some co =>
    simp only []
    exact pyStrip_idem _
  | none =>
    simp only []
    exact h

theorem classify_snd_stripped {x : List Char} (h : pyStrip x = x) :
    pyStrip (classifyCommand x).2 = (classifyCommand x).2 := by
  unfold classifyCommand
  split
  · exact pyStrip_idem _
  · split
    · rfl
    · split
      · rfl
      · exact h

theorem parse_msg_stripped (t : List Char) :
    pyStrip (parse_command_and_message t).userMessage =
      (parse_command_and_message t).userMessage := by
  have h0 : pyStrip (clean_mention_text t) = clean_mention_text t := pyStrip_idem _
  have h1 := @extractDir_snd_stripped sysKey _ h0
  have h2 := @extractDir_snd_stripped modelKey _ h1
  exact classify_snd_stripped h2

theorem classify_fst_cases (x : List Char) :
    (classifyCommand x).1 = cmdOllama ∨ (classifyCommand x).1 = cmdClear ∨
      (classifyCommand x).1 = cmdHelp := by
  unfold classifyCommand
  split
  · exact Or.inl rfl
  · split
    · exact Or.inr (Or.inl rfl)
    · split
      · exact Or.inr (Or.inr rfl)
      · exact Or.inl rfl

theorem classify_clear_msg {x : List Char} (h : (classifyCommand x).1 = cmdClear) :
    (classifyCommand x).2 = [] := by
  unfold classifyCommand at h ⊢
  by_cases h1 : "/ollama".data.isPrefixOf x
  · rw [if_pos h1] at h
    exact absurd h (by decide : ¬ cmdOllama = cmdClear)
  · rw [if_neg h1] at h ⊢
    by_cases h2 : "/clear".data.isPrefixOf x
    · rw [if_pos h2]
    · rw [if_neg h2] at h ⊢
      by_cases h3 : "/help".data.isPrefixOf x
      · rw [if_pos h3] at h
        exact absurd h (by decide : ¬ cmdHelp = cmdClear)
      · rw [if_neg h3] at h
        exact absurd h (by decide : ¬ cmdOllama = cmdClear)

theorem classify_help_msg {x : List Char} (h : (classifyCommand x).1 = cmdHelp) :
    (classifyCommand x).2 = [] := by
  unfold classifyCommand at h ⊢
  by_cases h1 : "/ollama".data.isPrefixOf x
  · rw [if_pos h1] at h
    exact absurd h (by decide : ¬ cmdOllama = cmdHelp)
  · rw [if_neg h1] at h ⊢
    by_cases h2 : "/clear".data.isPrefixOf x
    · rw [if_pos h2] at h
      exact absurd h (by decide : ¬ cmdClear = cmdHelp)
    · rw [if_neg h2] at h ⊢
      by_cases h3 : "/help".data.isPrefixOf x
      · rw [if_pos h3]
      · rw [if_neg h3] at h
        exact absurd h (by decide : ¬ cmdOllama = cmdHelp)

theorem parse_cmd_cases (t : List Char) :
    (parse_command_and_message t).command = cmdOllama ∨
      (parse_command_and_message t).command = cmdClear ∨
      (parse_command_and_message t).command = cmdHelp :=
  classify_fst_cases _

theorem parse_clear_msg {t : List Char}
    (h : (parse_command_and_message t).command = cmdClear) :
    (parse_command_and_message t).userMessage = [] :=
  classify_clear_msg h

theorem parse_help_msg {t : List Char}
    (h : (parse_command_and_message t).command = cmdHelp) :
    (parse_command_and_message t).userMessage = [] :=
  classify_help_msg h

theorem findDir_sys_ollama_front {msg : List Char} (h : findDir sysKey msg = none) :
    findDir sysKey ("/ollama ".data ++ msg) = none := by
  show findDir sysKey ('/' :: 'o' :: 'l' :: 'l' :: 'a' :: 'm' :: 'a' :: ' ' :: msg) = none
  have e1 : findDir sysKey ('/' :: 'o' :: 'l' :: 'l' :: 'a' :: 'm' :: 'a' :: ' ' :: msg) =
      findDir sysKey ('o' :: 'l' :: 'l' :: 'a' :: 'm' :: 'a' :: ' ' :: msg) :=
    findDir_cons_ne (by decide)
  have e2 : findDir sysKey ('o' :: 'l' :: 'l' :: 'a' :: 'm' :: 'a' :: ' ' :: msg) =
      findDir sysKey ('l' :: 'l' :: 'a' :: 'm' :: 'a' :: ' ' :: msg) :=
    findDir_cons_ne (by decide)
  have e3 : findDir sysKey ('l' :: 'l' :: 'a' :: 'm' :: 'a' :: ' ' :: msg) =
      findDir sysKey ('l' :: 'a' :: 'm' :: 'a' :: ' ' :: msg) :=
    findDir_cons_ne (by decide)
  have e4 : findDir sysKey ('l' :: 'a' :: 'm' :: 'a' :: ' ' :: msg) =
      findDir sysKey ('a' :: 'm' :: 'a' :: ' ' :: msg) :=
    findDir_cons_ne (by decide)
  have e5 : findDir sysKey ('a' :: 'm' :: 'a' :: ' ' :: msg) =
      findDir sysKey ('m' :: 'a' :: ' ' :: msg) :=
    findDir_cons_ne (by decide)
  have e6 : findDir sysKey ('m' :: 'a' :: ' ' :: msg) =
      findDir sysKey ('a' :: ' ' :: msg) :=
    findDir_cons_ne (by decide)
  have e7 : findDir sysKey ('a' :: ' ' :: msg) = findDir sysKey (' ' :: msg) :=
    findDir_cons_ne (by decide)
  have e8 : findDir sysKey (' ' :: msg) = findDir sysKey msg :=
    findDir_cons_ne (by decide)
  rw [e1, e2, e3, e4, e5, e6, e7, e8]
  exact h

theorem findDir_model_ollama_front {msg : List Char} (h : findDir modelKey msg = none) :
    findDir modelKey ("/ollama ".data ++ msg) = none := by
  show findDir modelKey ('/' :: 'o' :: 'l' :: 'l' :: 'a' :: 'm' :: 'a' :: ' ' :: msg) = none
  have e1 : findDir modelKey ('/' :: 'o' :: 'l' :: 'l' :: 'a' :: 'm' :: 'a' :: ' ' :: msg) =
      findDir modelKey ('o' :: 'l' :: 'l' :: 'a' :: 'm' :: 'a' :: ' ' :: msg) :=
    findDir_cons_ne (by decide)
  have e2 : findDir modelKey ('o' :: 'l' :: 'l' :: 'a' :: 'm' :: 'a' :: ' ' :: msg) =
      findDir modelKey ('l' :: 'l' :: 'a' :: 'm' :: 'a' :: ' ' :: msg) :=
    findDir_cons_ne (by decide)
  have e3 : findDir modelKey ('l' :: 'l' :: 'a' :: 'm' :: 'a' :: ' ' :: msg) =
      findDir modelKey ('l' :: 'a' :: 'm' :: 'a' :: ' ' :: msg) :=
    findDir_cons_ne (by decide)
  have e4 : findDir modelKey ('l' :: 'a' :: 'm' :: 'a' :: ' ' :: msg) =
      findDir modelKey ('a' :: 'm' :: 'a' :: ' ' :: msg) :=
    findDir_cons_ne (by decide)
  have e5 : findDir modelKey ('a' :: 'm' :: 'a' :: ' ' :: msg) =
      findDir modelKey ('m' :: 'a' :: ' ' :: msg) :=
    findDir_cons_ne (by decide)
  have e6 : findDir modelKey ('m' :: 'a' :: ' ' :: msg) =
      findDir modelKey ('a' :: ' ' :: msg) :=
    findDir_cons2_ne (by decide)
  have e7 : findDir modelKey ('a' :: ' ' :: msg) = findDir modelKey (' ' :: msg) :=
    findDir_cons_ne (by decide)
  have e8 : findDir modelKey (' ' :: msg) = findDir modelKey msg :=
    findDir_cons_ne (by decide)
  rw [e1, e2, e3, e4, e5, e6, e7, e8]
  exact h

theorem parse_ollama_front (msg : List Char)
    (hsys : findDir sysKey msg = none)
    (hmod : findDir modelKey msg = none)
    (hmen : removeMentions msg = msg)
    (hstr : pyStrip msg = msg) :
    parse_command_and_message ("/ollama ".data ++ msg) = ⟨cmdOllama, msg, none, none⟩ := by
  by_cases hmsg : msg = []
  · subst hmsg
    simp only [List.append_nil]
    decide
  · have h1 : removeMentions ("/ollama ".data ++ msg) = "/ollama ".data ++ msg := by
      rw [removeMentions_append_of_ne (by decide), hmen]
    have h2 : pyStrip ("/ollama ".data ++ msg) = "/ollama ".data ++ msg := by
      apply pyStrip_of_bounds
      · show lstrip ('/' :: _) = _
        exact lstrip_cons_of_neg (by decide)
      · exact rstrip_append_of_stripped (stripped_rstrip hstr) hmsg
    have hclean : clean_mention_text ("/ollama ".data ++ msg) = "/ollama ".data ++ msg := by
      unfold clean_mention_text
      rw [h1, h2]
    have hes : extractDir sysKey ("/ollama ".data ++ msg) =
        (none, "/ollama ".data ++ msg) := by
      unfold extractDir
      rw [findDir_sys_ollama_front hsys]
    have hem : extractDir modelKey ("/ollama ".data ++ msg) =
        (none, "/ollama ".data ++ msg) := by
      unfold extractDir
      rw [findDir_model_ollama_front hmod]
    have hcl : classifyCommand ("/ollama ".data ++ msg) = (cmdOllama, msg) := by
      unfold classifyCommand
      rw [if_pos ?hpre]
      case hpre =>
        rw [List.isPrefixOf_iff_prefix]
        exact ⟨' ' :: msg, by simp⟩
      have hdrop : ("/ollama ".data ++ msg).drop 7 = ' ' :: msg := rfl
      rw [hdrop, pyStrip_cons_ws (by decide), hstr]
    show parse_command_and_message ("/ollama ".data ++ msg) = _
    simp only [parse_command_and_message]
    rw [hclean, hes]
    simp only []
    rw [hem]
    simp only []
    rw [hcl]

/-! ## Claims -/

/-- C2: for every thread and limit (on a healthy, well-formed store),
`get_history` returns the most recent `limit` messages in ascending
chronological order — the newest `limit` rows selected by id descending and
then reversed; in particular, after adding user `a`, assistant `b`, user `c`
to thread `T`, `get_history T 2` is `[(assistant, b), (user, c)]`. -/
theorem C2_get_history_ordering :
    (∀ (s : Store) (t : List Char) (limit : Nat), s.fail = false → s.db.wf →
      get_history s t limit =
        ((chron s.db t).reverse.take limit).reverse.map (fun r => (r.role, r.content))) ∧
    get_history exampleStore "T".data 2 =
      [("assistant".data, "b".data), ("user".data, "c".data)] := by
  constructor
  · intro s t limit hf hwf
    unfold get_history chron
    rw [if_neg (by simp [hf])]
    have hp : List.Pairwise (fun a b : Row => a.id < b.id)
        (s.db.rows.filter (fun r => r.thread_id = t)) :=
      List.Pairwise.filter _ hwf.1
    rw [sortDesc_of_pairwise hp]
  · decide

theorem C2_witness :
    exampleStore.fail = false ∧ exampleStore.db.wf ∧
    get_history exampleStore "T".data 2 =
      ((chron exampleStore.db "T".data).reverse.take 2).reverse.map
        (fun r => (r.role, r.content)) :=
  ⟨rfl, by decide, C2_get_history_ordering.1 exampleStore "T".data 2 rfl (by decide)⟩

/-- C3: the gateway's `ask` never raises — `askE` always carries `Except.ok`
— and transport/backend failures become short human-readable strings: a
timeout yields the fixed non-empty timeout message, a connection failure the
connection message, and a non-2xx status the HTTP-error message; the three
are pairwise distinct. -/
theorem C3_gateway_resilience :
    ∀ (st : ClientState) (messages : List ChatMsg) (sp mn : Option (List Char)),
      (∀ backend, ∃ s, (askE st messages sp mn backend).1 = Except.ok s) ∧
      (ask st messages sp mn (fun _ => .error .timeout)).1 =
        "Ollama request timed out".data ∧
      "Ollama request timed out".data ≠ [] ∧
      (ask st messages sp mn (fun _ => .error .connectionError)).1 =
        "Ollama could not connect to the server".data ∧
      (∀ (status : Nat) (jb : Option JVal) (txt : List Char),
        ¬(status = 200 ∨ status = 201 ∨ status = 202) →
        (ask st messages sp mn (fun _ => .ok ⟨status, jb, txt⟩)).1 =
          "Ollama error occurred: ".data ++
            (if status < 400 then (toString status).data else "None".data)) ∧
      "Ollama request timed out".data ≠ "Ollama could not connect to the server".data ∧
      (∀ (status : Nat),
        "Ollama error occurred: ".data ++
            (if status < 400 then (toString status).data else "None".data) ≠
          "Ollama request timed out".data ∧
        "Ollama error occurred: ".data ++
            (if status < 400 then (toString status).data else "None".data) ≠
          "Ollama could not connect to the server".data) := by
  intro st messages sp mn
  refine ⟨fun backend => ⟨_, rfl⟩, rfl, by decide, rfl, ?_, by decide, ?_⟩
  · intro status jb txt h
    unfold ask askE
    simp only [chat_http h]
  · intro status
    constructor
    · intro hcontra
      have h8 := congrArg (List.take 8) hcontra
      rw [List.take_append_of_le_length (by decide)] at h8
      revert h8
      decide
    · intro hcontra
      have h8 := congrArg (List.take 8) hcontra
      rw [List.take_append_of_le_length (by decide)] at h8
      revert h8
      decide

theorem C3_witness :
    ¬((500 : Nat) = 200 ∨ (500 : Nat) = 201 ∨ (500 : Nat) = 202) ∧
    (ask exampleClient [] none none (fun _ => .ok ⟨500, none, []⟩)).1 =
      "Ollama error occurred: ".data ++
        (if (500 : Nat) < 400 then (toString (500 : Nat)).data else "None".data) :=
  ⟨by decide,
    (C3_gateway_resilience exampleClient [] none none).2.2.2.2.1 500 none [] (by decide)⟩

/-- C4 (counterexample): the claim fails for a present-but-empty model
override.  With the gateway default model `default` and `modelOverride`
present as the empty string, the backend call is made with the default model
(observable through an echoing backend), so the override is not used for the
call. -/
theorem C4_counterexample :
    (ask ⟨[], "default".data, 30⟩ [] none (some []) echoBackend).1 = "default".data ∧
    "default".data ≠ ([] : List Char) := by
  constructor
  · rfl
  · decide

/-- C4 (amended): the gateway's default model is restored after every `ask`
call, whatever the inputs and the backend outcome (even when the backend call
fails); and for a present non-empty override, the single backend call is made
with a payload whose model is the override — two backends agreeing on
payloads carrying the override model produce identical `ask` results.  (A
present but empty-string override is ignored by Python truthiness, which is
the only amendment to the claim.) -/
theorem C4_override_scoped :
    (∀ (st : ClientState) (messages : List ChatMsg) (sp mn : Option (List Char))
      (backend : Payload → Except ApiError Response),
      ((askE st messages sp mn backend).2).model = st.model) ∧
    (∀ (st : ClientState) (messages : List ChatMsg) (sp : Option (List Char))
      (m : List Char) (b1 b2 : Payload → Except ApiError Response),
      m ≠ [] → (∀ p, p.model = m → b1 p = b2 p) →
      ask st messages sp (some m) b1 = ask st messages sp (some m) b2) := by
  constructor
  · intro st messages sp mn backend
    unfold askE
    cases mn with
    | none => rfl
    | some m =>
      by_cases hm : m ≠ []
      · simp only [if_pos hm, set_model]
      · simp only [if_neg hm]
  · intro st messages sp m b1 b2 hm hagree
    have hchat : ∀ msgs, chat (set_model st m) msgs b1 = chat (set_model st m) msgs b2 := by
      intro msgs
      unfold chat
      rw [hagree (create_chat_payload (set_model st m) msgs false) rfl]
    unfold ask askE
    simp only [if_pos hm, hchat]

theorem C4_witness :
    ((askE exampleClient [] none (some "x".data) (fun _ => .error .timeout)).2).model =
      exampleClient.model ∧
    ask exampleClient [] none (some "x".data) (fun _ => .error .timeout) =
      ask exampleClient [] none (some "x".data) (fun _ => .error .timeout) :=
  ⟨C4_override_scoped.1 exampleClient [] none (some "x".data) (fun _ => .error .timeout),
    C4_override_scoped.2 exampleClient [] none "x".data _ _ (by decide) (fun p _ => rfl)⟩

/-- C5: a plain thread-reply event for which any eligibility condition fails
— a truthy bot-identity/subtype marker, no `thread_ts`, no stored history for
the thread, or empty trimmed text — exits silently: no reply is produced and
neither the store nor the client state changes. -/
theorem C5_thread_reply_gating :
    ∀ (store : Store) (client : ClientState) (backend : Payload → Except ApiError Response)
      (ev : SlackEvent),
      (optTruthy ev.bot_id = true ∨ optTruthy ev.subtype = true ∨ ev.thread_ts = none ∨
        (∀ tts, ev.thread_ts = some tts → has_thread_history store tts = false) ∨
        pyStrip (ev.text.getD []) = []) →
      handle_message store client backend ev = (store, client, []) := by
  intro store client backend ev h
  exact handle_message_silent h

theorem C5_witness :
    (⟨some "hi".data, "U1".data, "100.1".data, none, none, none⟩ : SlackEvent).thread_ts =
      none ∧
    handle_message exampleStore exampleClient (fun _ => .error .timeout)
      ⟨some "hi".data, "U1".data, "100.1".data, none, none, none⟩ =
      (exampleStore, exampleClient, []) :=
  ⟨rfl,
    C5_thread_reply_gating exampleStore exampleClient (fun _ => .error .timeout)
      ⟨some "hi".data, "U1".data, "100.1".data, none, none, none⟩
      (Or.inr (Or.inr (Or.inl rfl)))⟩

/-- C6 (counterexample): a 2xx payload that lacks the expected
`{message: {content: string}}` reply shape is not always stringified: the
payload `{"message": {}}` has a `message` object without `content`, and the
gateway returns the empty string, not the (non-empty) stringified payload. -/
theorem C6_counterexample :
    chat exampleClient []
      (fun _ => .ok ⟨200, some (.jobj [("message".data, .jobj [])]), "raw".data⟩) = [] ∧
    pyStr (.jobj [("message".data, .jobj [])]) ≠ [] := by
  constructor
  · decide
  · simp [pyStr, pyRepr, pyReprFields]

/-- C6 (amended): for every 2xx backend response whose payload is not a JSON
object with a top-level `message` field, the gateway returns the raw
stringified payload (the raw body text when the body is not JSON) rather than
failing.  (A payload whose `message` object lacks `content` instead yields
the empty string, which is the only amendment forced by the counterexample.) -/
theorem C6_stringify_unexpected :
    ∀ (st : ClientState) (messages : List ChatMsg) (resp : Response),
      (resp.status = 200 ∨ resp.status = 201 ∨ resp.status = 202) →
      (∀ j, resp.jsonBody = some j →
        (∀ fields, j = .jobj fields → lookupField fields "message".data = none) →
        chat st messages (fun _ => .ok resp) = pyStr j) ∧
      (resp.jsonBody = none → chat st messages (fun _ => .ok resp) = resp.text) := by
  intro st messages resp h2
  have hresp : handle_api_response resp =
      (match resp.jsonBody with
       | some j => .ok (.inl j)
       | none => .ok (.inr resp.text)) := by
    unfold handle_api_response
    rw [if_pos h2]
  constructor
  · intro j hj hnomsg
    unfold chat
    simp only [hresp, hj]
    cases j with
    | jobj fields =>
      simp only [hnomsg fields rfl]
    | jstr s => rfl
    | jnum n => rfl
    | jbool b => rfl
    | jnull => rfl
    | jarr es => rfl
  · intro hnone
    unfold chat
    simp only [hresp, hnone]

theorem C6_witness :
    chat exampleClient [] (fun _ => .ok ⟨200, some (.jarr []), []⟩) = pyStr (.jarr []) :=
  (C6_stringify_unexpected exampleClient [] ⟨200, some (.jarr []), []⟩
    (Or.inl rfl)).1 (.jarr []) rfl (fun _ hf => nomatch hf)

/-- C8: with the storage layer erroring, the write operations `add_message`
and `clear_thread_history` raise while the read operations degrade
gracefully: `get_history` returns the empty sequence and `get_statistics` /
`get_all_threads` return empty results instead of raising. -/
theorem C8_storage_error_policy :
    ∀ (s : Store) (t role content : List Char) (limit : Nat), s.fail = true →
      add_message s t role content = .error .sqlError ∧
      clear_thread_history s t = .error .sqlError ∧
      get_history s t limit = [] ∧
      get_statistics s = [] ∧
      get_all_threads s = [] := by
  intro s t role content limit h
  refine ⟨?_, ?_, ?_, ?_, ?_⟩ <;>
    simp [add_message, clear_thread_history, get_history, get_statistics,
      get_all_threads, h]

theorem C8_witness :
    (⟨⟨[], 1⟩, true⟩ : Store).fail = true ∧
    add_message ⟨⟨[], 1⟩, true⟩ "T".data "user".data "a".data = .error .sqlError ∧
    clear_thread_history ⟨⟨[], 1⟩, true⟩ "T".data = .error .sqlError ∧
    get_history ⟨⟨[], 1⟩, true⟩ "T".data 20 = [] ∧
    get_statistics ⟨⟨[], 1⟩, true⟩ = [] ∧
    get_all_threads ⟨⟨[], 1⟩, true⟩ = [] :=
  ⟨rfl, C8_storage_error_policy ⟨⟨[], 1⟩, true⟩ "T".data "user".data "a".data 20 rfl⟩

/-- C9: every row the orchestrator writes has non-whitespace content — for
every `process_user_input` run, each row of the resulting store either was
already present or has content whose trim is non-empty (empty input is
rejected before the user write; an empty reply is replaced by a non-empty
fallback before the assistant write). -/
theorem C9_no_blank_rows :
    ∀ (store : Store) (client : ClientState) (backend : Payload → Except ApiError Response)
      (command user_message : List Char) (sp mn : Option (List Char)) (tts : List Char)
      (r : Row),
      r ∈ (process_user_input store client backend command user_message sp mn tts).1.db.rows →
      r ∈ store.db.rows ∨ pyStrip r.content ≠ [] := by
  intro store client backend command um sp mn tts r hr
  unfold process_user_input at hr
  by_cases h1 : command = cmdClear
  · rw [if_pos h1] at hr
    cases hcl : clear_thread_history store tts with
    | ok s2 =>
      rw [hcl] at hr
      exact Or.inl (mem_of_clear_ok hcl hr)
    | error e =>
      rw [hcl] at hr
      exact Or.inl hr
  · rw [if_neg h1] at hr
    by_cases h2 : command = cmdHelp
    · rw [if_pos h2] at hr
      exact Or.inl hr
    · rw [if_neg h2] at hr
      by_cases h3 : pyStrip um = []
      · rw [if_pos h3] at hr
        exact Or.inl hr
      · rw [if_neg h3] at hr
        cases hadd : add_message store tts "user".data um with
        | error e =>
          rw [hadd] at hr
          exact Or.inl hr
        | ok s2 =>
          rw [hadd] at hr
          simp only at hr
          set q := query_llm client
            ((get_history s2 tts 20).map (fun rc => ChatMsg.mk rc.1 rc.2)) sp mn backend
            with hq
          set response := if pyStrip q.1 = [] then llmEmptyFallback else q.1 with hresp
          cases hadd2 : add_message s2 tts "assistant".data response with
          | error e =>
            rw [hadd2] at hr
            cases mem_of_add_ok hadd hr with
            | inl hl => exact Or.inl hl
            | inr hc => right; rw [hc]; exact h3
          | ok s3 =>
            rw [hadd2] at hr
            cases mem_of_add_ok hadd2 hr with
            | inl hl =>
              cases mem_of_add_ok hadd hl with
              | inl hll => exact Or.inl hll
              | inr hc => right; rw [hc]; exact h3
            | inr hc =>
              right
              rw [hc, hresp]
              by_cases hql : pyStrip q.1 = []
              · rw [if_pos hql]
                decide
              · rw [if_neg hql]
                exact hql

theorem C9_witness :
    (⟨1, "T".data, "user".data, "hi".data⟩ : Row) ∈
      (process_user_input emptyStore exampleClient (fun _ => .error .timeout)
        cmdOllama "hi".data none none "T".data).1.db.rows ∧
    ((⟨1, "T".data, "user".data, "hi".data⟩ : Row) ∈ emptyStore.db.rows ∨
      pyStrip (⟨1, "T".data, "user".data, "hi".data⟩ : Row).content ≠ []) :=
  ⟨by decide,
    C9_no_blank_rows emptyStore exampleClient (fun _ => .error .timeout)
      cmdOllama "hi".data none none "T".data ⟨1, "T".data, "user".data, "hi".data⟩
      (by decide)⟩

/-- C10: if the storage read inside `has_thread_history` fails the check
returns `false` rather than raising, and consequently every plain
thread-reply event is silently ignored while storage is erroring — even when
the thread actually has stored rows. -/
theorem C10_has_history_degrades :
    (∀ (s : Store) (t : List Char), s.fail = true → has_thread_history s t = false) ∧
    (∀ (store : Store) (client : ClientState) (backend : Payload → Except ApiError Response)
      (ev : SlackEvent), store.fail = true →
      handle_message store client backend ev = (store, client, [])) := by
  constructor
  · intro s t h
    simp [has_thread_history, h]
  · intro store client backend ev h
    apply handle_message_silent
    exact Or.inr (Or.inr (Or.inr (Or.inl (fun tts _ => by
      simp [has_thread_history, h]))))

theorem C10_witness :
    (⟨⟨[⟨1, "T".data, "user".data, "hi".data⟩], 2⟩, true⟩ : Store).fail = true ∧
    (⟨1, "T".data, "user".data, "hi".data⟩ : Row) ∈
      (⟨⟨[⟨1, "T".data, "user".data, "hi".data⟩], 2⟩, true⟩ : Store).db.rows ∧
    has_thread_history ⟨⟨[⟨1, "T".data, "user".data, "hi".data⟩], 2⟩, true⟩ "T".data =
      false ∧
    handle_message ⟨⟨[⟨1, "T".data, "user".data, "hi".data⟩], 2⟩, true⟩ exampleClient
      (fun _ => .error .timeout)
      ⟨some "hi".data, "U1".data, "100.2".data, some "T".data, none, none⟩ =
      (⟨⟨[⟨1, "T".data, "user".data, "hi".data⟩], 2⟩, true⟩, exampleClient, []) :=
  ⟨rfl, by decide,
    C10_has_history_degrades.1 ⟨⟨[⟨1, "T".data, "user".data, "hi".data⟩], 2⟩, true⟩
      "T".data rfl,
    C10_has_history_degrades.2 ⟨⟨[⟨1, "T".data, "user".data, "hi".data⟩], 2⟩, true⟩
      exampleClient (fun _ => .error .timeout)
      ⟨some "hi".data, "U1".data, "100.2".data, some "T".data, none, none⟩ rfl⟩


/-- C1 (counterexample): the claim that only the first matched directive is
excised is false — on the input `system:"a" x system:"b"` the parser captures
`a` (the first match) but excises both directives, so no system-directive
occurrence remains in the residual user message. -/
theorem C1_counterexample :
    parse_command_and_message ("system:\"a\" x system:\"b\"".data) =
      ⟨cmdOllama, "x".data, some "a".data, none⟩ ∧
    findDir sysKey
      (parse_command_and_message ("system:\"a\" x system:\"b\"".data)).userMessage =
      none :=
  ⟨by decide, by decide⟩

/-- C1 (amended): at most the first occurrence's content is captured, but
every occurrence of the directive pattern (not only the matched one) is
excised from the text: for contents `a`, `b` free of quote and mention
characters, parsing `system:"a" x system:"b"` yields system prompt `a` and
residual message `x`; the same holds for the `model:"..."` directive (with
contents additionally free of `s`, so that no system-directive match can
arise). -/
theorem C1_first_capture_all_excised :
    (∀ a b : List Char,
      (∀ c ∈ a, ¬ c = quoteChar ∧ ¬ c = ltChar) →
      (∀ c ∈ b, ¬ c = quoteChar ∧ ¬ c = ltChar) →
      parse_command_and_message
        (sysKey ++ (a ++ quoteChar :: (' ' :: 'x' :: ' ' ::
          (sysKey ++ (b ++ [quoteChar]))))) =
        ⟨cmdOllama, "x".data, some a, none⟩) ∧
    (∀ a b : List Char,
      (∀ c ∈ a, ¬ c = quoteChar ∧ ¬ c = ltChar ∧ ¬ c = 's') →
      (∀ c ∈ b, ¬ c = quoteChar ∧ ¬ c = ltChar ∧ ¬ c = 's') →
      parse_command_and_message
        (modelKey ++ (a ++ quoteChar :: (' ' :: 'x' :: ' ' ::
          (modelKey ++ (b ++ [quoteChar]))))) =
        ⟨cmdOllama, "x".data, none, some a⟩) :=
  ⟨fun a b ha hb => parse_two_sys_directives a b ha hb,
    fun a b ha hb => parse_two_model_directives a b ha hb⟩

theorem C1_witness :
    (∀ c ∈ "abc".data, ¬ c = quoteChar ∧ ¬ c = ltChar) ∧
    (∀ c ∈ "def".data, ¬ c = quoteChar ∧ ¬ c = ltChar) ∧
    parse_command_and_message
      (sysKey ++ ("abc".data ++ quoteChar :: (' ' :: 'x' :: ' ' ::
        (sysKey ++ ("def".data ++ [quoteChar]))))) =
      ⟨cmdOllama, "x".data, some "abc".data, none⟩ :=
  ⟨by decide, by decide,
    C1_first_capture_all_excised.1 "abc".data "def".data (by decide) (by decide)⟩

/-- C7 (counterexample): parser idempotence fails — on the input
`sysmodel:"m"tem:"p" q"` the model-directive excision juxtaposes the
remaining characters into a fresh `system:"p"` directive inside the residual
user message, so re-parsing the reconstructed text extracts a new system
prompt and changes the user message. -/
theorem C7_counterexample :
    (parse_command_and_message (reconstruct
      (parse_command_and_message "sysmodel:\"m\"tem:\"p\" q\"".data))).userMessage ≠
      (parse_command_and_message "sysmodel:\"m\"tem:\"p\" q\"".data).userMessage ∧
    (parse_command_and_message (reconstruct
      (parse_command_and_message "sysmodel:\"m\"tem:\"p\" q\"".data))).systemPrompt ≠
      none :=
  ⟨by decide, by decide⟩

/-- C7 (amended): parsing the parser's own reconstructed text yields the same
user message, the same command, and no directives, provided the residual user
message contains no directive-pattern occurrence and no mention markup (which
excision can create, as the counterexample shows). -/
theorem C7_reconstruction_idempotent :
    ∀ t : List Char,
      findDir sysKey (parse_command_and_message t).userMessage = none →
      findDir modelKey (parse_command_and_message t).userMessage = none →
      removeMentions (parse_command_and_message t).userMessage =
        (parse_command_and_message t).userMessage →
      parse_command_and_message (reconstruct (parse_command_and_message t)) =
        ⟨(parse_command_and_message t).command,
          (parse_command_and_message t).userMessage, none, none⟩ := by
  intro t hsys hmod hmen
  have hstr : pyStrip (parse_command_and_message t).userMessage =
      (parse_command_and_message t).userMessage := parse_msg_stripped t
  rcases parse_cmd_cases t with hc | hc | hc
  · have hrec : reconstruct (parse_command_and_message t) =
        "/ollama ".data ++ (parse_command_and_message t).userMessage := by
      unfold reconstruct
      rw [hc]
      rw [if_neg (by decide : ¬ cmdOllama = cmdClear),
        if_neg (by decide : ¬ cmdOllama = cmdHelp)]
    rw [hrec, hc]
    exact parse_ollama_front _ hsys hmod hmen hstr
  · have hmsg := parse_clear_msg hc
    have hrec : reconstruct (parse_command_and_message t) = "/clear".data := by
      unfold reconstruct
      rw [hc, if_pos rfl]
    rw [hrec, hc, hmsg]
    decide
  · have hmsg := parse_help_msg hc
    have hrec : reconstruct (parse_command_and_message t) = "/help".data := by
      unfold reconstruct
      rw [hc]
      rw [if_neg (by decide : ¬ cmdHelp = cmdClear), if_pos rfl]
    rw [hrec, hc, hmsg]
    decide

theorem C7_witness :
    findDir sysKey (parse_command_and_message "hello".data).userMessage = none ∧
    findDir modelKey (parse_command_and_message "hello".data).userMessage = none ∧
    removeMentions (parse_command_and_message "hello".data).userMessage =
      (parse_command_and_message "hello".data).userMessage ∧
    parse_command_and_message (reconstruct (parse_command_and_message "hello".data)) =
      ⟨(parse_command_and_message "hello".data).command,
        (parse_command_and_message "hello".data).userMessage, none, none⟩ :=
  ⟨by decide, by decide, by decide,
    C7_reconstruction_idempotent "hello".data (by decide) (by decide) (by decide)⟩

end SlackChat
